import Mathlib

/-!
Verification of the caching and resource-pooling layer of a conversational
RAG service.

The development shallowly embeds the Python sources:
- src/cache/semantic_cache.py  (SemanticCache, ContextOptimizer)
- src/cache/redis_utils.py     (RedisCache)
- src/database/connection_manager.py (SQLiteConnectionPool, ChromaConnectionCache)

Conventions of the embedding:
- Python floats are modelled as rationals.
- External collaborators (the redis service, the sklearn cosine routine, the
  SQLite and Chroma factories, hash functions) are modelled at their
  documented boundary, never the internal logic of this repository.
- Serialization by json.dumps / json.loads is modelled as the identity on an
  inductive value type; a value of the wrong shape under a key plays the role
  of a deserialization failure.
- Fallible operations return Option or Bool; the Python try/except blocks
  become total functions, so no exception can escape a component by
  construction.
-/

namespace RagCache

/-! ## Data model -/

/-- A chat turn: role plus content, as stored in the chat-history values
(src/cache/redis_utils.py, append_to_chat_history builds
\x7brole, content\x7d dictionaries). -/
structure Turn where
  role : String
  content : String
deriving DecidableEq

/-! ## ContextOptimizer (src/cache/semantic_cache.py, lines 152-221) -/

/-- estimate_tokens: rough token estimation, one token per 4 characters,
integer division (line 159-161). -/
def estimate_tokens (text : String) : Nat :=
  text.length / 4

/-- Total estimated tokens of a history: sum of the per-turn estimates,
as computed inline in compress_chat_history (line 168). -/
def totalTokens (h : List Turn) : Nat :=
  (h.map (fun m => estimate_tokens m.content)).sum

/-- Python negative-index slice l[-n:]: the trailing n elements, the whole
list when it is shorter than n. -/
def takeLast {α : Type} (n : Nat) (l : List α) : List α :=
  l.drop (l.length - n)

/-- compress_chat_history (lines 163-183): unchanged when within budget,
else the last 10 turns when those fit, else the last 6 turns.
The api_key parameter of the Python method is unused there and omitted. -/
def compress_chat_history (maxContextTokens : Nat) (h : List Turn) : List Turn :=
  if h = [] then h
  else if totalTokens h ≤ maxContextTokens then h
  else
    let recent := takeLast 10 h
    if totalTokens recent ≤ maxContextTokens then recent
    else takeLast 6 h

/-- Specification-side restatement of the compression contract, written from
the words of the spec: within budget return unchanged; else the trailing
10-turn window when its estimate is within budget; else the last 6 turns.
Exactly two trim stages, no iterative shrinking. -/
def compressSpec (budget : Nat) (h : List Turn) : List Turn :=
  if totalTokens h ≤ budget then h
  else if totalTokens (takeLast 10 h) ≤ budget then takeLast 10 h
  else takeLast 6 h

/-- summarize_old_context (lines 185-196): empty string for an empty list;
otherwise collect the contents of the turns whose role is the string
"human", and format the first two of them when there are at most two, the
first three (with a count) when there are more. -/
def summarize_old_context (old : List Turn) : String :=
  if old = [] then ""
  else
    let user_queries := (old.filter (fun m => m.role == "human")).map (fun m => m.content)
    if user_queries.length ≤ 2 then
      "Previous topics discussed: " ++ String.intercalate (", ") (user_queries.take 2)
    else
      "Previous conversation covered " ++ toString user_queries.length ++
        " topics including: " ++ String.intercalate (", ") (user_queries.take 3) ++ "..."

/-- Specification-side restatement of the synopsis (amended): user-authored
means role "human"; an empty input gives the empty string; a nonempty input
always gives a fixed-format sentence, listing the first two user-authored
texts when there are at most two and the first three with a count
otherwise. -/
def summarizeOlderSpec (old : List Turn) : String :=
  match old with
  | [] => ""
  | _ :: _ =>
    let topics := (old.filter (fun m => m.role == "human")).map (fun m => m.content)
    if 2 < topics.length then
      "Previous conversation covered " ++ toString topics.length ++
        " topics including: " ++ String.intercalate (", ") (topics.take 3) ++ "..."
    else
      "Previous topics discussed: " ++ String.intercalate (", ") (topics.take 2)

/-! ## SemanticCache similarity scan (src/cache/semantic_cache.py, lines 66-114)

The scan in find_similar_cached_response enumerates every record stored
under the semantic_cache: namespace, asks the external sklearn routine
cosine_similarity for a score per record, and keeps the best score that is
strictly above both the configured threshold and the running best (which
starts at 0.0).  In the embedding the records of the namespace are the input
list, and the external scoring routine is a parameter sim; Python floats are
rationals. -/

/-- A deserialized semantic_cache: record
(the JSON written by cache_response, lines 124-131; the context_hash and
api_key_hash fields play no part in the scan and are omitted). -/
structure CacheRecord where
  query : String
  response : String
  embedding : List ℚ
  timestamp : String
deriving DecidableEq

/-- The dictionary find_similar_cached_response builds for the best match
(lines 96-101). -/
structure CacheMatch where
  response : String
  similarity : ℚ
  original_query : String
  timestamp : String
deriving DecidableEq

/-- The record loop of find_similar_cached_response (lines 84-103): fold over
the records carrying best_similarity (initially 0.0) and best_match
(initially none); a record is taken when its score strictly exceeds both the
threshold and the running best. -/
def find_similar_loop (sim : List ℚ → List ℚ → ℚ) (threshold : ℚ) (qe : List ℚ) :
    List CacheRecord → ℚ → Option CacheMatch → Option CacheMatch
  | [], _, best_match => best_match
  | r :: rs, best_similarity, best_match =>
    let s := sim qe r.embedding
    if threshold < s ∧ best_similarity < s then
      find_similar_loop sim threshold qe rs s
        (some { response := r.response, similarity := s,
                original_query := r.query, timestamp := r.timestamp })
    else
      find_similar_loop sim threshold qe rs best_similarity best_match

/-- find_similar_cached_response restricted to the scan itself: the query
embedding has resolved and the cache is reachable, records is the full
contents of the semantic_cache: namespace. best_similarity starts at 0.0 and
best_match at none (lines 81-82). -/
def find_similar_cached_response (sim : List ℚ → List ℚ → ℚ) (threshold : ℚ)
    (qe : List ℚ) (records : List CacheRecord) : Option CacheMatch :=
  find_similar_loop sim threshold qe records 0 none

/-- The match built from a record at its score, for stating what the scan
may return. -/
def matchOf (sim : List ℚ → List ℚ → ℚ) (qe : List ℚ) (r : CacheRecord) : CacheMatch :=
  { response := r.response, similarity := sim qe r.embedding,
    original_query := r.query, timestamp := r.timestamp }

/-- Specification-side contract of the scan, from the words of the claim:
the result is the best-scoring record whose similarity is strictly greater
than the threshold (equal-to-threshold does not qualify), or none when no
record strictly exceeds the threshold. -/
def isBestAboveThreshold (sim : List ℚ → List ℚ → ℚ) (threshold : ℚ) (qe : List ℚ)
    (records : List CacheRecord) : Option CacheMatch → Prop
  | some m =>
      threshold < m.similarity ∧
      (∃ r ∈ records, m = matchOf sim qe r) ∧
      ∀ r ∈ records, sim qe r.embedding ≤ m.similarity
  | none => ∀ r ∈ records, sim qe r.embedding ≤ threshold

/-- Cosine similarity specialised to unit vectors: for unit-length u and v
the glossary formula u·v / (‖u‖ ‖v‖) is exactly the dot product, which is
rational.  Concrete inputs below only ever use the unit vectors [1, 0],
[0, 1] and [-1, 0], so this instantiates the external sklearn
cosine_similarity exactly on them. -/
def cosineSimUnit (u v : List ℚ) : ℚ :=
  (List.zipWith (fun a b => a * b) u v).sum

/-! ## DistributedCache (src/cache/redis_utils.py)

The RedisCache component wraps an external key-value service.  The service
is modelled as a record of primitive operations over an abstract state, each
of which may fail; the try/except blocks of the component become matches on
the Except results.  Values are the inductive RVal (json round-trips are the
identity on it; a blob under a history key models a payload json.loads
cannot turn into a list). -/

/-- A stored value: a chat history (a JSON list of role/content pairs) or an
opaque JSON blob such as a rag-chain config. -/
inductive RVal where
  | hist (turns : List Turn)
  | blob (data : String)
deriving DecidableEq

/-- Primitive operations of the external key-value service over an abstract
service state σ.  ping is the liveness probe, get / setex / del the calls
the component issues; any of them may fail with an error message. -/
structure RedisClient (σ : Type) where
  ping : σ → Except String Unit
  get : String → σ → Except String (Option RVal)
  setex : String → Int → RVal → σ → Except String σ
  del : String → σ → Except String σ

/-- is_connected (lines 27-35): true exactly when the liveness probe
succeeds (a missing client object is an always-failing probe). -/
def is_connected {σ : Type} (c : RedisClient σ) (s : σ) : Bool :=
  match c.ping s with
  | .ok _ => true
  | .error _ => false

/-- SHA-256 hex digest truncated to 16 characters (lines 101, 121),
modelled as an opaque injective encoding of the key. -/
def sha256_16 (k : String) : String :=
  "sha256:" ++ k

/-- get_chat_history (lines 37-53): probe first, then get the
chat_history:\x7bsession\x7d key; a missing key, a failing get, or a payload
that does not deserialize to a list all yield a miss. -/
def get_chat_history {σ : Type} (c : RedisClient σ) (s : σ) (session_id : String) :
    Option (List Turn) :=
  if is_connected c s then
    match c.get ("chat_history:" ++ session_id) s with
    | .ok (some (RVal.hist h)) => some h
    | .ok (some (RVal.blob _)) => none
    | .ok none => none
    | .error _ => none
  else none

/-- set_chat_history (lines 55-71): probe first, then SETEX the serialized
history with the given ttl in hours (the Python default is 24); a failing
setex is caught and reported as false. -/
def set_chat_history {σ : Type} (c : RedisClient σ) (s : σ) (session_id : String)
    (chat_history : List Turn) (ttl_hours : Int) : Bool × σ :=
  if is_connected c s then
    match c.setex ("chat_history:" ++ session_id) (ttl_hours * 3600) (RVal.hist chat_history) s with
    | .ok s2 => (true, s2)
    | .error _ => (false, s)
  else (false, s)

/-- append_to_chat_history (lines 73-92): probe, read the current history
(missing or unreadable becomes the empty list), extend it with a user turn
and an assistant turn, and rewrite the whole entry through set_chat_history
with its default ttl of 24 hours. -/
def append_to_chat_history {σ : Type} (c : RedisClient σ) (s : σ) (session_id : String)
    (user_query ai_response : String) : Bool × σ :=
  if is_connected c s then
    let current := (get_chat_history c s session_id).getD []
    set_chat_history c s session_id
      (current ++ [{ role := "user", content := user_query },
                   { role := "assistant", content := ai_response }]) 24
  else (false, s)

/-- get_rag_chain_config (lines 94-113): probe first, then get the
rag_chain:\x7bhash\x7d:\x7bmodel\x7d key; the stored JSON blob is returned
as-is, errors become a miss. -/
def get_rag_chain_config {σ : Type} (c : RedisClient σ) (s : σ) (api_key model : String) :
    Option RVal :=
  if is_connected c s then
    match c.get ("rag_chain:" ++ sha256_16 api_key ++ ":" ++ model) s with
    | .ok (some v) => some v
    | .ok none => none
    | .error _ => none
  else none

/-- set_rag_chain_config (lines 115-133): probe first, then SETEX the config
blob with the given ttl in minutes (the Python default is 30). -/
def set_rag_chain_config {σ : Type} (c : RedisClient σ) (s : σ) (api_key model : String)
    (config : String) (ttl_minutes : Int) : Bool × σ :=
  if is_connected c s then
    match c.setex ("rag_chain:" ++ sha256_16 api_key ++ ":" ++ model) (ttl_minutes * 60)
        (RVal.blob config) s with
    | .ok s2 => (true, s2)
    | .error _ => (false, s)
  else (false, s)

/-- invalidate_chat_history (lines 135-147): probe first, then delete the
chat_history:\x7bsession\x7d key. -/
def invalidate_chat_history {σ : Type} (c : RedisClient σ) (s : σ) (session_id : String) :
    Bool × σ :=
  if is_connected c s then
    match c.del ("chat_history:" ++ session_id) s with
    | .ok s2 => (true, s2)
    | .error _ => (false, s)
  else (false, s)

/-- An unreachable service: every primitive fails.  This instantiates both a
downed service and the constructor-failure path where redis_client is None. -/
def deadClient : RedisClient Unit where
  ping _ := .error ("redis unreachable")
  get _ _ := .error ("redis unreachable")
  setex _ _ _ _ := .error ("redis unreachable")
  del _ _ := .error ("redis unreachable")

/-! A concrete model of a live redis store, for the TTL claims.  The store
is an association list from key to (value, ttl in seconds); expiry by the
passage of time happens on the service clock, outside this model, so the
ttl is recorded with the entry.  Modelled from the documented redis
semantics: SETEX rejects a nonpositive expire time with an error and stores
nothing; GET returns the stored value; DEL removes the key. -/

/-- The state of the modelled live service. -/
abbrev RedisStore : Type := List (String × RVal × Int)

/-- Lookup of a key in the store. -/
def storeGet (k : String) (st : RedisStore) : Option (RVal × Int) :=
  (st.find? (fun e => e.1 == k)).map (fun e => e.2)

/-- Overwrite of a key in the store (dictionary assignment). -/
def storeSet (k : String) (v : RVal) (ttl : Int) (st : RedisStore) : RedisStore :=
  (k, v, ttl) :: st.filter (fun e => !(e.1 == k))

/-- Removal of a key from the store. -/
def storeDel (k : String) (st : RedisStore) : RedisStore :=
  st.filter (fun e => !(e.1 == k))

/-- The live service: ping succeeds, SETEX errors on a nonpositive ttl and
otherwise overwrites the entry, GET and DEL act on the association list. -/
def redisModel : RedisClient RedisStore where
  ping _ := .ok ()
  get k st := .ok ((storeGet k st).map (fun p => p.1))
  setex k ttl v st :=
    if ttl ≤ 0 then .error ("invalid expire time in setex") else .ok (storeSet k v ttl st)
  del k st := .ok (storeDel k st)

/-- The history a fresh read of the session sees, with the Python
or-else-empty fallback of append_to_chat_history. -/
def currentHist (st : RedisStore) (session_id : String) : List Turn :=
  (get_chat_history redisModel st session_id).getD []

/-! ## SQLiteConnectionPool (src/database/connection_manager.py, lines 19-75)

get_connection first consults the thread-local slot of the calling worker,
then pops from the shared free list under the pool lock, and only then
creates a fresh connection.  Workers are identified by numbers, connections
by their creation index; the thread-local table is an association list from
worker to connection.  Each call of get_connection touches only the calling
worker's slot and the locked free list, so calls are modelled as atomic
steps and an execution is a list of worker ids. -/

/-- Pool state: per-worker thread-local slots, the shared free list, and the
stats counters of lines 28-32. -/
structure PoolState where
  locals : List (Nat × Nat)
  pool : List Nat
  created : Nat
  reused : Nat
  active : Nat
deriving DecidableEq

/-- The thread-local lookup hasattr(self._local, connection) of line 37. -/
def lookupW (w : Nat) (ls : List (Nat × Nat)) : Option Nat :=
  (ls.find? (fun p => p.1 == w)).map (fun p => p.2)

/-- get_connection (lines 34-57) as called by worker w: reuse the
thread-local connection when present; else pop the free list; else create a
fresh connection whose identity is the creation counter. -/
def get_connection (w : Nat) (st : PoolState) : Nat × PoolState :=
  match lookupW w st.locals with
  | some conn => (conn, { st with reused := st.reused + 1 })
  | none =>
    match st.pool with
    | conn :: rest =>
        (conn,
         { st with
           pool := rest
           locals := (w, conn) :: st.locals
           reused := st.reused + 1
           active := st.active + 1 })
    | [] =>
        (st.created,
         { st with
           locals := (w, st.created) :: st.locals
           created := st.created + 1
           active := st.active + 1 })

/-- The constructor state (lines 22-32): empty free list, no thread-local
connections, zeroed counters. -/
def initPool : PoolState :=
  { locals := [], pool := [], created := 0, reused := 0, active := 0 }

/-- Run a sequence of get_connection calls, one per listed worker. -/
def runCalls : List Nat → PoolState → PoolState
  | [], st => st
  | w :: ws, st => runCalls ws (get_connection w st).2

/-- The set of workers currently holding a thread-local connection. -/
def holders (st : PoolState) : Finset Nat :=
  (st.locals.map (fun p => p.1)).toFinset

/-! ## ChromaConnectionCache (src/database/connection_manager.py, lines 77-138)

get_vectorstore holds the single lock for the cache check (and the deletion
of an expired entry), RELEASES it, creates the vectorstore through the
external factory with no lock held, and re-acquires the lock to store the
result.  The cache maps the credential fingerprint chroma_\x7bhash\x7d to a
(vectorstore, timestamp) pair; Python hash is modelled as an injective
encoding, the factory as a function from the credential that may fail, and
vectorstore identities as numbers.  factoryCalls counts factory invocations
(each OpenAIEmbeddings/Chroma construction attempt). -/

/-- The chroma cache: fingerprint to (vectorstore id, creation timestamp),
plus the count of factory invocations. -/
structure ChromaState where
  connections : List (String × Nat × Nat)
  factoryCalls : Nat
deriving DecidableEq

/-- The cache key chroma_\x7bhash(api_key)\x7d of line 90, with hash as an
injective encoding. -/
def chroma_key (api_key : String) : String :=
  "chroma_" ++ api_key

/-- Lookup of a fingerprint in the chroma cache. -/
def lookupC (k : String) (cs : List (String × Nat × Nat)) : Option (Nat × Nat) :=
  (cs.find? (fun e => e.1 == k)).map (fun e => e.2)

/-- Removal of a fingerprint (the del of line 102). -/
def eraseC (k : String) (cs : List (String × Nat × Nat)) : List (String × Nat × Nat) :=
  cs.filter (fun e => !(e.1 == k))

/-- Store of a fingerprint (the dictionary assignment of line 116). -/
def setC (k : String) (p : Nat × Nat) (cs : List (String × Nat × Nat)) :
    List (String × Nat × Nat) :=
  (k, p) :: eraseC k cs

/-- The creation tail of get_vectorstore (lines 104-123): invoke the factory;
on success store the handle under the fingerprint with the current time and
return it; on failure return none and cache nothing. -/
def createVS (factory : String → Option Nat) (now : Nat) (ck : String) (api_key : String)
    (st : ChromaState) : Option Nat × ChromaState :=
  match factory api_key with
  | some vs =>
      (some vs,
       { connections := setC ck (vs, now) st.connections
         factoryCalls := st.factoryCalls + 1 })
  | none => (none, { st with factoryCalls := st.factoryCalls + 1 })

/-- get_vectorstore (lines 85-123) as a single sequential call (one caller,
no interleaving): falsy api_key short-circuits; a cached fingerprint younger
than the ttl is returned; an expired entry is deleted and recreated; a miss
is created. -/
def get_vectorstore (factory : String → Option Nat) (now : Nat) (cache_ttl_minutes : Nat)
    (api_key : String) (st : ChromaState) : Option Nat × ChromaState :=
  if api_key = "" then (none, st)
  else
    let ck := chroma_key api_key
    match lookupC ck st.connections with
    | some (vs, ts) =>
        if now - ts < cache_ttl_minutes * 60 then (some vs, st)
        else createVS factory now ck api_key { st with connections := eraseC ck st.connections }
    | none => createVS factory now ck api_key st

/-- Absence of an unexpired entry for a fingerprint: the state in which
get_vectorstore consults the factory at all. -/
def noFreshEntry (st : ChromaState) (ck : String) (now ttl : Nat) : Prop :=
  match lookupC ck st.connections with
  | some p => ttl * 60 ≤ now - p.2
  | none => True

/-! Interleaved executions of get_vectorstore.  The single lock makes the
check (lines 92-102) and the store (lines 115-116) atomic critical
sections; the factory call (lines 105-112) runs with no lock held.  A
worker is therefore a sequence of three atomic phases, and an execution is
an arbitrary interleaving of worker steps.  All workers call with the same
credential during the same instant (one expiry window); the factory always
succeeds and yields the current invocation count as the vectorstore
identity. -/

/-- Where a worker stands inside its get_vectorstore call. -/
inductive Phase where
  | ready
  | toCreate
  | toStore (vs : Nat)
  | finished (result : Option Nat)
deriving DecidableEq

/-- Global interleaved state: the shared chroma cache plus each worker's
phase. -/
structure CState where
  connections : List (String × Nat × Nat)
  factoryCalls : Nat
  phases : List (Nat × Phase)
deriving DecidableEq

/-- Phase of one worker. -/
def lookupPhase (w : Nat) (ps : List (Nat × Phase)) : Option Phase :=
  (ps.find? (fun p => p.1 == w)).map (fun p => p.2)

/-- Overwrite of one worker's phase. -/
def setPhase (w : Nat) (ph : Phase) (st : CState) : CState :=
  { st with phases := (w, ph) :: st.phases.filter (fun p => !(p.1 == w)) }

/-- One atomic step of worker w: the locked check (hit finishes the call,
an expired entry is deleted, a miss moves to creation), the unlocked
factory call, or the locked store. -/
def wstep (now ttl : Nat) (ck : String) (w : Nat) (st : CState) : CState :=
  match lookupPhase w st.phases with
  | some Phase.ready =>
    (match lookupC ck st.connections with
     | some (vs, ts) =>
        if now - ts < ttl * 60 then setPhase w (Phase.finished (some vs)) st
        else { setPhase w Phase.toCreate st with connections := eraseC ck st.connections }
     | none => setPhase w Phase.toCreate st)
  | some Phase.toCreate =>
      { setPhase w (Phase.toStore st.factoryCalls) st with factoryCalls := st.factoryCalls + 1 }
  | some (Phase.toStore vs) =>
      { setPhase w (Phase.finished (some vs)) st with
        connections := setC ck (vs, now) st.connections }
  | some (Phase.finished _) => st
  | none => st

/-- Run an interleaving: each schedule entry is the id of the worker taking
the next atomic step. -/
def runSched (now ttl : Nat) (ck : String) : List Nat → CState → CState
  | [], st => st
  | w :: ws, st => runSched now ttl ck ws (wstep now ttl ck w st)

/-- Two workers about to call get_vectorstore concurrently on an empty
cache. -/
def twoWorkersInit : CState :=
  { connections := []
    factoryCalls := 0
    phases := [(0, Phase.ready), (1, Phase.ready)] }

/-- A concurrent state in which worker 2 is about to call get_vectorstore
while the cache already holds handle 5, stored at time 0, for the
fingerprint of credential k. -/
def hitState : CState :=
  { connections := [(chroma_key ("k"), 5, 0)]
    factoryCalls := 1
    phases := [(2, Phase.ready)] }

/-! Concrete semantic-cache records used by the closed instances below.
Their embeddings are unit vectors, so cosineSimUnit scores them exactly as
the glossary cosine would. -/

/-- A cached record whose unit embedding points opposite the query [1, 0]:
cosine similarity -1. -/
def recOpposite : CacheRecord :=
  { query := "q0", response := "r0", embedding := [-1, 0], timestamp := "t0" }

/-- A cached record whose unit embedding equals the query [1, 0]: cosine
similarity 1. -/
def recAligned : CacheRecord :=
  { query := "what is RAG?", response := "RAG is retrieval augmented generation"
    embedding := [1, 0], timestamp := "t1" }

/-- A cached record whose unit embedding is orthogonal to the query [1, 0]:
cosine similarity 0. -/
def recOrthogonal : CacheRecord :=
  { query := "other", response := "r2", embedding := [0, 1], timestamp := "t2" }

/-! ## Theorems -/

/-- C5: for every conversation history and token budget, compress returns
the history unchanged when the estimated total token count (characters
divided by 4, summed over turns) is within the budget; otherwise the
trailing 10-turn window when its estimate is within the budget; otherwise
exactly the trailing 6 turns — exactly two trim stages and no further
iterative shrinking. -/
theorem compress_two_trim_stages (budget : Nat) (h : List Turn) :
    compress_chat_history budget h = compressSpec budget h := by
  by_cases hh : h = []
  · subst hh
    simp [compress_chat_history, compressSpec, totalTokens, Nat.zero_le]
  · simp only [compress_chat_history, compressSpec, if_neg hh]

/-- A concatenation with a nonempty left part is nonempty. -/
theorem append_ne_empty_left (s t : String) (h : 0 < s.length) : s ++ t ≠ "" := by
  intro heq
  have h2 := congrArg String.length heq
  rw [String.length_append] at h2
  simp only [String.length_empty] at h2
  omega

/-- A concatenation with a nonempty right part is nonempty. -/
theorem append_ne_empty_right (s t : String) (h : 0 < t.length) : s ++ t ≠ "" := by
  intro heq
  have h2 := congrArg String.length heq
  rw [String.length_append] at h2
  simp only [String.length_empty] at h2
  omega

/-- C6 counterexample: a one-turn list whose role is assistant contains no
user-authored turn under any reading (neither role user nor the role human
the code tests for), yet summarize_old_context returns the nonempty header
sentence rather than the empty string the claim requires. -/
theorem summarize_old_context_counterexample :
    (([{ role := "assistant", content := "x" }] : List Turn).filter
        (fun m => m.role == "user")).length = 0 ∧
    (([{ role := "assistant", content := "x" }] : List Turn).filter
        (fun m => m.role == "human")).length = 0 ∧
    summarize_old_context [{ role := "assistant", content := "x" }]
        = "Previous topics discussed: " ∧
    summarize_old_context [{ role := "assistant", content := "x" }] ≠ "" := by
  refine ⟨by decide, by decide, by decide, by decide⟩

/-- C6 amended: summarize_old_context returns the empty string exactly for
the empty list; user-authored means role human (the pipeline rewrites user
to human before this component runs); a nonempty list always yields a
fixed-format sentence listing the text of the first two user-authored turns
when at most two exist (possibly listing nothing) and of the first three,
with a count, when more exist. -/
theorem summarize_old_context_fixed_format (old : List Turn) :
    summarize_old_context old = summarizeOlderSpec old ∧
    (summarize_old_context old = "" ↔ old = []) := by
  cases old with
  | nil => exact ⟨rfl, by simp [summarize_old_context]⟩
  | cons a l =>
    have hne : (a :: l : List Turn) ≠ [] := by simp
    have hnonempty : summarize_old_context (a :: l) ≠ "" := by
      rw [summarize_old_context, if_neg hne]
      by_cases hq : ((((a :: l).filter (fun m => m.role == "human")).map
          (fun m => m.content)).length ≤ 2)
      · rw [if_pos hq]
        exact append_ne_empty_left _ _ (by decide)
      · rw [if_neg hq]
        exact append_ne_empty_right _ _ (by decide)
    refine ⟨?_, ?_⟩
    · rw [summarize_old_context, if_neg hne, summarizeOlderSpec]
      by_cases hq : ((((a :: l).filter (fun m => m.role == "human")).map
          (fun m => m.content)).length ≤ 2)
      · rw [if_pos hq, if_neg (by omega)]
      · rw [if_neg hq, if_pos (by omega)]
    · constructor
      · intro heq
        exact absurd heq hnonempty
      · intro hcons
        exact absurd hcons hne

/-- Invariant of the record loop: starting from accumulators in which a
present best match carries the running best score, itself strictly above a
nonnegative threshold (and an absent best match means the running best is
still 0.0), the loop returns a best match satisfying the scan contract over
the remaining records. -/
theorem find_similar_loop_spec (sim : List ℚ → List ℚ → ℚ) (threshold : ℚ) (qe : List ℚ)
    (hth : 0 ≤ threshold) :
    ∀ (rs : List CacheRecord) (best : ℚ) (bm : Option CacheMatch),
      (bm = none → best = 0) →
      (∀ m0, bm = some m0 → m0.similarity = best ∧ threshold < best) →
      (match find_similar_loop sim threshold qe rs best bm with
       | some m =>
           threshold < m.similarity ∧
           ((∃ r ∈ rs, m = matchOf sim qe r) ∨ bm = some m) ∧
           (∀ r ∈ rs, sim qe r.embedding ≤ m.similarity) ∧
           (∀ m0, bm = some m0 → m0.similarity ≤ m.similarity)
       | none => bm = none ∧ ∀ r ∈ rs, sim qe r.embedding ≤ threshold) := by
  intro rs
  induction rs with
  | nil =>
    intro best bm h0 hsome
    simp only [find_similar_loop]
    cases bm with
    | none => exact ⟨rfl, by simp⟩
    | some m =>
      have hm := hsome m rfl
      exact ⟨hm.1 ▸ hm.2, Or.inr rfl, by simp,
        fun m0 hm0 => by rw [Option.some.injEq] at hm0; rw [hm0]⟩
  | cons r rs ih =>
    intro best bm h0 hsome
    simp only [find_similar_loop]
    by_cases hc : threshold < sim qe r.embedding ∧ best < sim qe r.embedding
    · rw [if_pos hc]
      have hrec := ih (sim qe r.embedding)
        (some { response := r.response, similarity := sim qe r.embedding,
                original_query := r.query, timestamp := r.timestamp })
        (fun h => nomatch h)
        (fun m0 hm0 => by
          rw [Option.some.injEq] at hm0
          rw [← hm0]
          exact ⟨rfl, hc.1⟩)
      cases hres : find_similar_loop sim threshold qe rs (sim qe r.embedding)
          (some { response := r.response, similarity := sim qe r.embedding,
                  original_query := r.query, timestamp := r.timestamp }) with
      | none =>
        rw [hres] at hrec
        exact absurd hrec.1 (by simp)
      | some m =>
        rw [hres] at hrec
        refine ⟨hrec.1, ?_, ?_, ?_⟩
        · rcases hrec.2.1 with hmem | hself
          · rcases hmem with ⟨r2, hr2, hm2⟩
            exact Or.inl ⟨r2, List.mem_cons_of_mem r hr2, hm2⟩
          · rw [Option.some.injEq] at hself
            exact Or.inl ⟨r, List.mem_cons_self r rs, by rw [← hself]; rfl⟩
        · intro r2 hr2
          rcases List.mem_cons.mp hr2 with hr2 | hr2
          · subst hr2
            have := hrec.2.2.2 _ rfl
            exact this
          · exact hrec.2.2.1 r2 hr2
        · intro m0 hm0
          have hb := hsome m0 hm0
          have hle := hrec.2.2.2 _ rfl
          calc m0.similarity = best := hb.1
            _ ≤ sim qe r.embedding := le_of_lt hc.2
            _ ≤ m.similarity := hle
    · rw [if_neg hc]
      have hrec := ih best bm h0 hsome
      cases hres : find_similar_loop sim threshold qe rs best bm with
      | none =>
        rw [hres] at hrec
        refine ⟨hrec.1, ?_⟩
        intro r2 hr2
        rcases List.mem_cons.mp hr2 with hr2 | hr2
        · subst hr2
          rcases not_and_or.mp hc with hsle | hble
          · exact le_of_not_lt hsle
          · have hbest := h0 hrec.1
            have hsb : sim qe r2.embedding ≤ best := le_of_not_lt hble
            rw [hbest] at hsb
            exact le_trans hsb hth
        · exact hrec.2 r2 hr2
      | some m =>
        rw [hres] at hrec
        refine ⟨hrec.1, ?_, ?_, hrec.2.2.2⟩
        · rcases hrec.2.1 with hmem | hself
          · rcases hmem with ⟨r2, hr2, hm2⟩
            exact Or.inl ⟨r2, List.mem_cons_of_mem r hr2, hm2⟩
          · exact Or.inr hself
        · intro r2 hr2
          rcases List.mem_cons.mp hr2 with hr2 | hr2
          · subst hr2
            rcases not_and_or.mp hc with hsle | hble
            · exact le_of_lt (lt_of_le_of_lt (le_of_not_lt hsle) hrec.1)
            · have hle : sim qe r2.embedding ≤ best := le_of_not_lt hble
              cases hbm : bm with
              | none =>
                have hbest := h0 hbm
                rw [hbest] at hle
                exact le_trans hle (le_of_lt (lt_of_le_of_lt hth hrec.1))
              | some m0 =>
                have hb := hsome m0 hbm
                have hm0le := hrec.2.2.2 m0 hbm
                rw [← hb.1] at hle
                exact le_trans hle hm0le
          · exact hrec.2.2.1 r2 hr2

/-- C1 (for nonnegative thresholds, which includes the configured default
0.85): for every scoring function the external cosine routine may compute,
every resolved query embedding, and every cache contents, the scan returns
the best-scoring record whose similarity is strictly greater than the
threshold — equal-to-threshold does not qualify — or none when no record
strictly exceeds the threshold. -/
theorem find_similar_returns_best_above_threshold (sim : List ℚ → List ℚ → ℚ)
    (threshold : ℚ) (qe : List ℚ) (records : List CacheRecord) (hth : 0 ≤ threshold) :
    isBestAboveThreshold sim threshold qe records
      (find_similar_cached_response sim threshold qe records) := by
  have h := find_similar_loop_spec sim threshold qe hth records 0 none
    (fun _ => rfl) (fun m0 hm0 => nomatch hm0)
  rw [find_similar_cached_response]
  cases hres : find_similar_loop sim threshold qe records 0 none with
  | none =>
    rw [hres] at h
    simp only [isBestAboveThreshold]
    exact h.2
  | some m =>
    rw [hres] at h
    simp only [isBestAboveThreshold]
    exact ⟨h.1, h.2.1.resolve_right (fun hh => nomatch hh), h.2.2.1⟩

/-- Closed instance of C1 at the default threshold 0.85: the query embedding
[1, 0] against an aligned record (similarity 1) and an orthogonal record
(similarity 0) — the hypothesis 0 ≤ 0.85 is discharged concretely. -/
theorem find_similar_returns_best_above_threshold_witness :
    0 ≤ (0.85 : ℚ) ∧
    isBestAboveThreshold cosineSimUnit 0.85 [1, 0] [recAligned, recOrthogonal]
      (find_similar_cached_response cosineSimUnit 0.85 [1, 0] [recAligned, recOrthogonal]) :=
  ⟨by norm_num,
   find_similar_returns_best_above_threshold cosineSimUnit 0.85 [1, 0]
     [recAligned, recOrthogonal] (by norm_num)⟩

/-- C1 counterexample for the claim read over every configured threshold:
with threshold -2, the record recOpposite scores -1, strictly above the
threshold, yet the scan returns none — its running best starts at 0.0 and
-1 never beats it — so the scan does not satisfy the stated contract
there. -/
theorem find_similar_negative_threshold_counterexample :
    find_similar_cached_response cosineSimUnit (-2) [1, 0] [recOpposite] = none ∧
    (-2 : ℚ) < cosineSimUnit [1, 0] (recOpposite.embedding) ∧
    ¬ isBestAboveThreshold cosineSimUnit (-2) [1, 0] [recOpposite]
        (find_similar_cached_response cosineSimUnit (-2) [1, 0] [recOpposite]) := by
  have hnone : find_similar_cached_response cosineSimUnit (-2) [1, 0] [recOpposite] = none := by
    norm_num [find_similar_cached_response, find_similar_loop, cosineSimUnit, recOpposite]
  refine ⟨hnone, by norm_num [cosineSimUnit, recOpposite], ?_⟩
  intro hbad
  rw [hnone] at hbad
  simp only [isBestAboveThreshold] at hbad
  have h := hbad recOpposite (by simp)
  norm_num [cosineSimUnit, recOpposite] at h

/-- Invariant for C10: a nonnegative running best and a best match of
positive similarity keep every returned match at positive similarity. -/
theorem find_similar_loop_pos (sim : List ℚ → List ℚ → ℚ) (threshold : ℚ) (qe : List ℚ) :
    ∀ (rs : List CacheRecord) (best : ℚ) (bm : Option CacheMatch),
      0 ≤ best →
      (∀ m0, bm = some m0 → 0 < m0.similarity) →
      ∀ m, find_similar_loop sim threshold qe rs best bm = some m → 0 < m.similarity := by
  intro rs
  induction rs with
  | nil =>
    intro best bm hb hbm m hm
    simp only [find_similar_loop] at hm
    exact hbm m hm
  | cons r rs ih =>
    intro best bm hb hbm m hm
    simp only [find_similar_loop] at hm
    by_cases hc : threshold < sim qe r.embedding ∧ best < sim qe r.embedding
    · rw [if_pos hc] at hm
      refine ih (sim qe r.embedding) _ (le_of_lt (lt_of_le_of_lt hb hc.2)) ?_ m hm
      intro m0 hm0
      rw [Option.some.injEq] at hm0
      rw [← hm0]
      exact lt_of_le_of_lt hb hc.2
    · rw [if_neg hc] at hm
      exact ih best bm hb hbm m hm

/-- C10: for every scoring function, threshold (negative ones included),
query embedding, and cache contents, a returned match always has
similarity strictly greater than 0, because the running best starts at 0.0
and a candidate must strictly exceed both the threshold and the running
best. -/
theorem find_similar_similarity_positive (sim : List ℚ → List ℚ → ℚ) (threshold : ℚ)
    (qe : List ℚ) (records : List CacheRecord) (m : CacheMatch)
    (h : find_similar_cached_response sim threshold qe records = some m) :
    0 < m.similarity :=
  find_similar_loop_pos sim threshold qe records 0 none le_rfl
    (fun _ hm0 => nomatch hm0) m h

/-- Closed instance of C10 at the negative threshold -5: the aligned record
is returned with similarity 1, which is positive. -/
theorem find_similar_similarity_positive_witness :
    find_similar_cached_response cosineSimUnit (-5) [1, 0] [recAligned]
      = some (matchOf cosineSimUnit [1, 0] recAligned) ∧
    0 < (matchOf cosineSimUnit [1, 0] recAligned).similarity := by
  have hsome : find_similar_cached_response cosineSimUnit (-5) [1, 0] [recAligned]
      = some (matchOf cosineSimUnit [1, 0] recAligned) := by
    norm_num [find_similar_cached_response, find_similar_loop, cosineSimUnit, recAligned, matchOf]
  exact ⟨hsome,
    find_similar_similarity_positive cosineSimUnit (-5) [1, 0] [recAligned]
      (matchOf cosineSimUnit [1, 0] recAligned) hsome⟩

/-- C2: for every service client and state whose liveness probe fails (the
service is unreachable), every read operation of the component returns a
miss, every write operation returns not-applied with the state untouched,
and — the operations being total functions into Option and Bool — no
exception propagates out of the component. -/
theorem redis_fail_open {σ : Type} (c : RedisClient σ) (s : σ) (e : String)
    (hping : c.ping s = .error e) :
    (∀ sid, get_chat_history c s sid = none) ∧
    (∀ sid h ttl, set_chat_history c s sid h ttl = (false, s)) ∧
    (∀ sid u a, append_to_chat_history c s sid u a = (false, s)) ∧
    (∀ k m, get_rag_chain_config c s k m = none) ∧
    (∀ k m cfg ttl, set_rag_chain_config c s k m cfg ttl = (false, s)) ∧
    (∀ sid, invalidate_chat_history c s sid = (false, s)) := by
  have hc : is_connected c s = false := by
    rw [is_connected, hping]
  refine ⟨?_, ?_, ?_, ?_, ?_, ?_⟩
  · intro sid
    rw [get_chat_history, hc]
    simp
  · intro sid h ttl
    rw [set_chat_history, hc]
    simp
  · intro sid u a
    rw [append_to_chat_history, hc]
    simp
  · intro k m
    rw [get_rag_chain_config, hc]
    simp
  · intro k m cfg ttl
    rw [set_rag_chain_config, hc]
    simp
  · intro sid
    rw [invalidate_chat_history, hc]
    simp

/-- Closed instance of C2 on the always-failing client: each of the six
operations observed at concrete arguments. -/
theorem redis_fail_open_witness :
    get_chat_history deadClient () ("s1") = none ∧
    set_chat_history deadClient () ("s1") [{ role := "user", content := "hi" }] 1 = (false, ()) ∧
    append_to_chat_history deadClient () ("s1") ("hi") ("hello") = (false, ()) ∧
    get_rag_chain_config deadClient () ("k") ("gpt") = none ∧
    set_rag_chain_config deadClient () ("k") ("gpt") ("cfg") 30 = (false, ()) ∧
    invalidate_chat_history deadClient () ("s1") = (false, ()) := by
  have h := redis_fail_open deadClient () ("redis unreachable") rfl
  exact ⟨h.1 ("s1"), h.2.1 ("s1") [{ role := "user", content := "hi" }] 1,
    h.2.2.1 ("s1") ("hi") ("hello"), h.2.2.2.1 ("k") ("gpt"),
    h.2.2.2.2.1 ("k") ("gpt") ("cfg") 30, h.2.2.2.2.2 ("s1")⟩

/-- Reading a key straight after writing it returns the written value and
ttl. -/
theorem storeGet_storeSet_self (k : String) (v : RVal) (ttl : Int) (st : RedisStore) :
    storeGet k (storeSet k v ttl st) = some (v, ttl) := by
  rw [storeSet, storeGet, List.find?_cons_of_pos _ (by simp)]
  rfl

/-- C7: a setHistory write with ttl less than or equal to zero stores
nothing — the service rejects the nonpositive expire time, the component
catches the error and reports not-applied with the store unchanged — so on
a store where the session was not already cached, a subsequent getHistory
returns a miss. -/
theorem set_history_nonpos_ttl_never_stored (st : RedisStore) (sid : String)
    (h : List Turn) (ttl : Int) (httl : ttl ≤ 0) :
    set_chat_history redisModel st sid h ttl = (false, st) ∧
    (storeGet ("chat_history:" ++ sid) st = none →
      get_chat_history redisModel st sid = none) := by
  have hc : is_connected redisModel st = true := rfl
  constructor
  · rw [set_chat_history, hc]
    have hts : ttl * 3600 ≤ 0 := by omega
    simp [redisModel, hts]
  · intro hget
    rw [get_chat_history, hc]
    simp [redisModel, hget]

/-- Closed instance of C7: writing a one-turn history with ttl 0 into the
empty store is rejected and the session still reads as a miss. -/
theorem set_history_nonpos_ttl_never_stored_witness :
    set_chat_history redisModel [] ("s1") [{ role := "user", content := "hi" }] 0
      = (false, []) ∧
    get_chat_history redisModel [] ("s1") = none := by
  have h := set_history_nonpos_ttl_never_stored [] ("s1")
    [{ role := "user", content := "hi" }] 0 (by decide)
  exact ⟨h.1, h.2 rfl⟩

/-- C9: every appendTurn on the live service succeeds and rewrites the full
history entry for the session with the default 24-hour ttl (86400 seconds),
whatever ttl any earlier setHistory had recorded for that entry. -/
theorem append_rewrites_with_default_ttl (st : RedisStore) (sid u a : String) :
    (append_to_chat_history redisModel st sid u a).1 = true ∧
    storeGet ("chat_history:" ++ sid) (append_to_chat_history redisModel st sid u a).2
      = some (RVal.hist (currentHist st sid ++
          [{ role := "user", content := u }, { role := "assistant", content := a }]),
          24 * 3600) := by
  have hc : is_connected redisModel st = true := rfl
  have hbody : append_to_chat_history redisModel st sid u a
      = (true, storeSet ("chat_history:" ++ sid)
          (RVal.hist (currentHist st sid ++
            [{ role := "user", content := u }, { role := "assistant", content := a }]))
          (24 * 3600) st) := by
    rw [append_to_chat_history, hc]
    rw [set_chat_history, hc]
    simp only [if_true]
    rw [currentHist]
    norm_num [redisModel]
  rw [hbody]
  exact ⟨rfl, storeGet_storeSet_self _ _ _ _⟩

/-- Thread-local lookup skips entries of other workers. -/
theorem lookupW_cons_ne (v w x : Nat) (ls : List (Nat × Nat)) (h : v ≠ w) :
    lookupW w ((v, x) :: ls) = lookupW w ls := by
  rw [lookupW, List.find?_cons_of_neg _ (by simp [h])]
  rfl

/-- A worker that holds a connection keeps it across any other call of
get_connection (the thread-local slot of w is never written by a call of
v). -/
theorem get_connection_keeps (v w : Nat) (st : PoolState) (c : Nat)
    (h : lookupW w st.locals = some c) :
    lookupW w ((get_connection v st).2).locals = some c := by
  cases hv : lookupW v st.locals with
  | some c2 =>
    simp only [get_connection, hv]
    exact h
  | none =>
    have hvw : v ≠ w := by
      intro heq
      rw [heq, h] at hv
      cases hv
    cases hp : st.pool with
    | cons c2 rest =>
      simp only [get_connection, hv, hp]
      rw [lookupW_cons_ne v w c2 st.locals hvw]
      exact h
    | nil =>
      simp only [get_connection, hv, hp]
      rw [lookupW_cons_ne v w st.created st.locals hvw]
      exact h

/-- After a call of get_connection the calling worker's thread-local slot
holds exactly the returned connection. -/
theorem get_connection_self (w : Nat) (st : PoolState) :
    lookupW w ((get_connection w st).2).locals = some ((get_connection w st).1) := by
  cases hv : lookupW w st.locals with
  | some c =>
    simp only [get_connection, hv]
  | none =>
    cases hp : st.pool with
    | cons c rest =>
      simp only [get_connection, hv, hp]
      rw [lookupW, List.find?_cons_of_pos _ (by simp)]
      rfl
    | nil =>
      simp only [get_connection, hv, hp]
      rw [lookupW, List.find?_cons_of_pos _ (by simp)]
      rfl

/-- A held connection is returned unchanged by get_connection. -/
theorem get_connection_of_some (w : Nat) (st : PoolState) (c : Nat)
    (h : lookupW w st.locals = some c) :
    (get_connection w st).1 = c := by
  simp only [get_connection, h]

/-- A held connection survives any sequence of calls by any workers. -/
theorem runCalls_keeps (ws : List Nat) :
    ∀ (st : PoolState) (w c : Nat), lookupW w st.locals = some c →
      lookupW w (runCalls ws st).locals = some c := by
  induction ws with
  | nil =>
    intro st w c h
    exact h
  | cons v ws ih =>
    intro st w c h
    rw [runCalls]
    exact ih _ w c (get_connection_keeps v w st c h)

/-- A worker without a thread-local connection is not among the holders. -/
theorem not_mem_holders (w : Nat) (st : PoolState)
    (h : lookupW w st.locals = none) : w ∉ holders st := by
  intro hmem
  rw [holders, List.mem_toFinset, List.mem_map] at hmem
  obtain ⟨p, hp, hpw⟩ := hmem
  rw [lookupW, Option.map_eq_none'] at h
  have := List.find?_eq_none.mp h p hp
  simp [hpw] at this

/-- One get_connection call creates at most as many connections as it adds
holders, and adds at most the calling worker to the holders. -/
theorem get_connection_step (w : Nat) (st : PoolState) :
    ((get_connection w st).2).created + (holders st).card
      ≤ st.created + (holders ((get_connection w st).2)).card ∧
    holders ((get_connection w st).2) ⊆ insert w (holders st) := by
  cases hv : lookupW w st.locals with
  | some c =>
    simp only [get_connection, hv]
    exact ⟨le_refl _, Finset.subset_insert _ _⟩
  | none =>
    cases hp : st.pool with
    | cons c rest =>
      simp only [get_connection, hv, hp]
      have hh :
          holders
            { st with
              pool := rest
              locals := (w, c) :: st.locals
              reused := st.reused + 1
              active := st.active + 1 } = insert w (holders st) := by
        simp [holders]
      rw [hh]
      exact ⟨Nat.add_le_add_left (Finset.card_le_card (Finset.subset_insert _ _)) _,
        Finset.Subset.refl _⟩
    | nil =>
      simp only [get_connection, hv, hp]
      have hh :
          holders
            { st with
              locals := (w, st.created) :: st.locals
              pool := []
              created := st.created + 1
              active := st.active + 1 } = insert w (holders st) := by
        simp [holders]
      rw [hh]
      rw [Finset.card_insert_of_not_mem (not_mem_holders w st hv)]
      exact ⟨by omega, Finset.Subset.refl _⟩

/-- Across any schedule of calls, the number of connections created is
bounded by the growth of the holder set, which itself only gains scheduled
workers. -/
theorem runCalls_count (ws : List Nat) :
    ∀ st : PoolState,
      (runCalls ws st).created + (holders st).card
        ≤ st.created + (holders (runCalls ws st)).card ∧
      holders (runCalls ws st) ⊆ holders st ∪ ws.toFinset := by
  induction ws with
  | nil =>
    intro st
    exact ⟨le_refl _, by simp [runCalls]⟩
  | cons w ws ih =>
    intro st
    rw [runCalls]
    have hstep := get_connection_step w st
    have hrec := ih (get_connection w st).2
    constructor
    · have h1 := hrec.1
      have h2 := hstep.1
      omega
    · calc holders (runCalls ws (get_connection w st).2)
          ⊆ holders (get_connection w st).2 ∪ ws.toFinset := hrec.2
        _ ⊆ insert w (holders st) ∪ ws.toFinset :=
            Finset.union_subset_union hstep.2 (Finset.Subset.refl _)
        _ = holders st ∪ (w :: ws).toFinset := by
            rw [List.toFinset_cons, Finset.insert_union, Finset.union_insert]

/-- C4: repeated calls of get_connection by a worker return the connection
of that worker's first call, whatever calls other workers interleave; and
across any schedule of calls from the initial pool, the number of distinct
connections ever created is at most the number of distinct workers in the
schedule. -/
theorem pool_idempotent_and_bounded :
    (∀ (pre mid : List Nat) (w : Nat),
      (get_connection w (runCalls mid (get_connection w (runCalls pre initPool)).2)).1
        = (get_connection w (runCalls pre initPool)).1) ∧
    (∀ ws : List Nat, (runCalls ws initPool).created ≤ ws.dedup.length) := by
  constructor
  · intro pre mid w
    have h1 := get_connection_self w (runCalls pre initPool)
    have h2 := runCalls_keeps mid _ w _ h1
    exact get_connection_of_some w _ _ h2
  · intro ws
    have h := runCalls_count ws initPool
    have hempty : holders initPool = ∅ := rfl
    have h1 : (runCalls ws initPool).created ≤ (holders (runCalls ws initPool)).card := by
      have hx := h.1
      rw [hempty] at hx
      simpa [initPool] using hx
    have h2 : holders (runCalls ws initPool) ⊆ ws.toFinset := by
      have hx := h.2
      rw [hempty] at hx
      simpa using hx
    calc (runCalls ws initPool).created
        ≤ (holders (runCalls ws initPool)).card := h1
      _ ≤ ws.toFinset.card := Finset.card_le_card h2
      _ = ws.dedup.length := List.card_toFinset ws

/-- Erasing a fingerprint removes it from the chroma cache. -/
theorem lookupC_eraseC_self (k : String) (cs : List (String × Nat × Nat)) :
    lookupC k (eraseC k cs) = none := by
  rw [lookupC, Option.map_eq_none', List.find?_eq_none]
  intro e he
  have h2 := (List.mem_filter.mp he).2
  simp only [Bool.not_eq_eq_eq_not, Bool.not_true, beq_eq_false_iff_ne] at h2
  simp [h2]

/-- On a miss with a succeeding factory, get_vectorstore stores the created
handle under the fingerprint and returns it, counting one factory
invocation. -/
theorem get_vectorstore_miss_success (factory : String → Option Nat) (now ttl : Nat)
    (api_key : String) (st : ChromaState) (vs : Nat) (hkey : api_key ≠ "")
    (hv : lookupC (chroma_key api_key) st.connections = none)
    (hvs : factory api_key = some vs) :
    get_vectorstore factory now ttl api_key st
      = (some vs,
         { connections := setC (chroma_key api_key) (vs, now) st.connections
           factoryCalls := st.factoryCalls + 1 }) := by
  simp only [get_vectorstore, if_neg hkey, hv, createVS, hvs]

/-- C8: when the factory fails for a credential with no unexpired cached
handle, get_vectorstore returns unavailable and stores no entry for that
fingerprint, so an immediately following call whose factory succeeds
performs a fresh creation attempt (one more factory invocation) and returns
the new handle rather than any cached failure. -/
theorem factory_failure_not_cached (factory : String → Option Nat) (now ttl : Nat)
    (api_key : String) (st : ChromaState) (hkey : api_key ≠ "")
    (hmiss : noFreshEntry st (chroma_key api_key) now ttl)
    (hfail : factory api_key = none) :
    (get_vectorstore factory now ttl api_key st).1 = none ∧
    lookupC (chroma_key api_key)
        (get_vectorstore factory now ttl api_key st).2.connections = none ∧
    (∀ (factory2 : String → Option Nat) (vs : Nat), factory2 api_key = some vs →
      (get_vectorstore factory2 now ttl api_key
          (get_vectorstore factory now ttl api_key st).2).1 = some vs ∧
      (get_vectorstore factory2 now ttl api_key
          (get_vectorstore factory now ttl api_key st).2).2.factoryCalls
        = (get_vectorstore factory now ttl api_key st).2.factoryCalls + 1) := by
  have hmain : (get_vectorstore factory now ttl api_key st).1 = none ∧
      lookupC (chroma_key api_key)
        (get_vectorstore factory now ttl api_key st).2.connections = none := by
    cases hv : lookupC (chroma_key api_key) st.connections with
    | some p =>
      obtain ⟨vs, ts⟩ := p
      rw [noFreshEntry, hv] at hmiss
      have hm2 : ttl * 60 ≤ now - ts := hmiss
      simp only [get_vectorstore, if_neg hkey, hv]
      rw [if_neg (by omega)]
      simp only [createVS, hfail]
      exact ⟨trivial, lookupC_eraseC_self _ _⟩
    | none =>
      simp only [get_vectorstore, if_neg hkey, hv, createVS, hfail]
      exact ⟨trivial, trivial⟩
  refine ⟨hmain.1, hmain.2, ?_⟩
  intro factory2 vs hvs
  rw [get_vectorstore_miss_success factory2 now ttl api_key _ vs hkey hmain.2 hvs]
  exact ⟨rfl, rfl⟩

/-- Closed instance of C8: on the empty cache, a failing factory for
credential k returns unavailable and caches nothing; the immediate retry
with a factory that yields handle 7 creates and returns it. -/
theorem factory_failure_not_cached_witness :
    (get_vectorstore (fun _ => none) 0 30 ("k") { connections := [], factoryCalls := 0 }).1
      = none ∧
    lookupC (chroma_key ("k"))
      (get_vectorstore (fun _ => none) 0 30 ("k")
        { connections := [], factoryCalls := 0 }).2.connections = none ∧
    (get_vectorstore (fun _ => some 7) 0 30 ("k")
      (get_vectorstore (fun _ => none) 0 30 ("k")
        { connections := [], factoryCalls := 0 }).2).1 = some 7 ∧
    (get_vectorstore (fun _ => some 7) 0 30 ("k")
      (get_vectorstore (fun _ => none) 0 30 ("k")
        { connections := [], factoryCalls := 0 }).2).2.factoryCalls
      = (get_vectorstore (fun _ => none) 0 30 ("k")
        { connections := [], factoryCalls := 0 }).2.factoryCalls + 1 := by
  have h := factory_failure_not_cached (fun _ => none) 0 30 ("k")
    { connections := [], factoryCalls := 0 } (by decide) trivial rfl
  have h2 := h.2.2 (fun _ => some 7) 7 rfl
  exact ⟨h.1, h.2.1, h2.1, h2.2⟩

/-- C3 counterexample: with the lock released between the cache check and
the creation, the interleaving in which both workers run their locked check
before either creates makes the factory run twice for the same fingerprint
within the same expiry window (all steps happen at instant 0, ttl 30
minutes), and both calls complete. -/
theorem chroma_concurrent_double_create :
    (runSched 0 30 (chroma_key ("k")) [0, 1, 0, 1, 0, 1] twoWorkersInit).factoryCalls = 2 ∧
    lookupPhase 0 (runSched 0 30 (chroma_key ("k")) [0, 1, 0, 1, 0, 1] twoWorkersInit).phases
      = some (Phase.finished (some 0)) ∧
    lookupPhase 1 (runSched 0 30 (chroma_key ("k")) [0, 1, 0, 1, 0, 1] twoWorkersInit).phases
      = some (Phase.finished (some 1)) := by
  refine ⟨by decide, by decide, by decide⟩

/-- C3 amended: the mutex guards the check and the store as two separate
critical sections, not the creation between them, so under concurrent first
access the factory can run more than once per expiry window; what does hold
is that once any call has stored a handle for the fingerprint, every
not-yet-started call that checks within the expiry window finishes with the
cached handle and no factory invocation. -/
theorem chroma_store_then_hit (now ttl : Nat) (ck : String) (w : Nat) (st : CState)
    (vs ts : Nat) (hphase : lookupPhase w st.phases = some Phase.ready)
    (hcache : lookupC ck st.connections = some (vs, ts))
    (hfresh : now - ts < ttl * 60) :
    wstep now ttl ck w st = setPhase w (Phase.finished (some vs)) st ∧
    (wstep now ttl ck w st).factoryCalls = st.factoryCalls := by
  have hstep : wstep now ttl ck w st = setPhase w (Phase.finished (some vs)) st := by
    simp only [wstep, hphase, hcache, if_pos hfresh]
  exact ⟨hstep, by rw [hstep]; rfl⟩

/-- Closed instance of the amended C3: worker 2 checks at instant 0 a cache
holding handle 5 stored at instant 0 with ttl 30 minutes — it finishes with
the cached handle and the factory count stays 1. -/
theorem chroma_store_then_hit_witness :
    wstep 0 30 (chroma_key ("k")) 2 hitState
      = setPhase 2 (Phase.finished (some 5)) hitState ∧
    (wstep 0 30 (chroma_key ("k")) 2 hitState).factoryCalls = hitState.factoryCalls :=
  chroma_store_then_hit 0 30 (chroma_key ("k")) 2 hitState 5 0 rfl rfl (by decide)
